import Mathlib

/-!
Shallow embedding of `pls_bonus_calculation.py` (lottery recommendation
verifier): draw-history CSV parsing, report location, ticket extraction,
prize classification, and the rotating report writer, together with proofs
about the embedded functions.

Modelling conventions:
* Python `int` is modelled by `Int` (arbitrary precision in both).
* Python strings are `String`/`List Char`; text scanning is done on
  `List Char`.  The regular expressions used by the script are all
  backtracking-free on their alphabets (each repeated class is disjoint
  from the following literal), so they are embedded as deterministic
  maximal-munch scanners.
* `re`'s `\s` / `\d` are modelled on the ASCII range actually exercised by
  the script's data (`\d` as `'0'..'9'`, `\s` as the six ASCII space
  characters); Python's extra Unicode classes are not exercised here.
* File-system reads are modelled by passing file contents explicitly; a
  file that is missing or undecodable under every attempted encoding
  (`robust_file_read` returning `None`) is an `Option.none` content.
* Console logging (`log_message`) is modelled, where a claim needs it, as
  an explicit list of emitted log events.
-/

namespace PLS

/-! ### Python-level primitives -/

/-- Python regex `\s` on the ASCII whitespace characters. -/
def isSpacePy (c : Char) : Bool :=
  c = ' ' || c = '\t' || c = '\n' || c = '\x0d' || c = '\x0b' || c = '\x0c'

/-- Python regex `\d` (decimal digit character). -/
def isDigitPy (c : Char) : Bool :=
  '0' ≤ c && c ≤ '9'

/-- Numeric value of a decimal digit character. -/
def digitVal (c : Char) : Int :=
  Int.ofNat (c.toNat - 48)

/-- Value of a string of decimal digits (the semantics of Python `int` on
an all-digit string, used for `sorted(..., key=int)` on period codes). -/
def natOfDigits (ds : List Char) : Nat :=
  ds.foldl (fun a c => a * 10 + (c.toNat - 48)) 0

/-- `int(s)` for a period-code-like string. -/
def strToNat (s : String) : Nat :=
  natOfDigits s.data

/-- Digits-only body of Python `int(str)`. -/
def parseDigits (ds : List Char) : Option Nat :=
  if ds ≠ [] ∧ ds.all isDigitPy then some (natOfDigits ds) else none

/-- Python `int(s)`: strips surrounding whitespace, accepts an optional
sign followed by decimal digits, otherwise raises `ValueError` (`none`). -/
def parseIntPy (s : String) : Option Int :=
  let t := ((s.data.dropWhile isSpacePy).reverse.dropWhile isSpacePy).reverse
  match t with
  | '+' :: ds => (parseDigits ds).map Int.ofNat
  | '-' :: ds => (parseDigits ds).map (fun n => -(Int.ofNat n))
  | ds => (parseDigits ds).map Int.ofNat

/-- Split a character list on a separator character, keeping empty pieces
(the behaviour of Python `str.split(sep)`). -/
def splitOnChar (sep : Char) : List Char → List (List Char)
  | [] => [[]]
  | c :: cs =>
    match splitOnChar sep cs with
    | [] => [[c]]
    | r :: rs => if c = sep then [] :: r :: rs else (c :: r) :: rs

/-- Python `str.splitlines()` restricted to `'\n'` line endings: like
splitting on `'\n'` except that a trailing newline does not produce a
final empty line. -/
def splitlinesPy (s : List Char) : List (List Char) :=
  match s with
  | [] => []
  | _ =>
    let parts := splitOnChar '\n' s
    if s.getLast? = some '\n' then parts.dropLast else parts

/-- `"\n".join(lines)`. -/
def joinNl : List String → String
  | [] => ""
  | [a] => a
  | a :: rest => a ++ "\n" ++ joinNl rest

/-! ### Script configuration constants -/

def REPORT_PATTERN : String := "pls_analysis_output_*.txt"

def CSV_FILE : String := "pls.csv"

def MAIN_REPORT_FILE : String := "latest_pls_calculation.txt"

/-- Declared retention limit for outcome records.  NOTE: the constant is
defined by the script but never read by `manage_report` (see the C3
theorems). -/
def MAX_NORMAL_RECORDS : Nat := 10

/-- Declared retention limit for error records.  Also never read. -/
def MAX_ERROR_LOGS : Nat := 20

/-- `PRIZE_TABLE`: payout per prize level. -/
def PRIZE_TABLE : List (String × Int) :=
  [("直选", 1000), ("组选3", 333), ("组选6", 167)]

/-- `PRIZE_TABLE[level]` (the key is always present at the call sites). -/
def prizeLookup (k : String) : Int :=
  match PRIZE_TABLE.find? (fun e => e.1 = k) with
  | some e => e.2
  | none => 0

/-! ### Draw History Store (`get_period_data_from_csv`, lines 84–123) -/

/-- Console log events emitted by `get_period_data_from_csv` via
`log_message`; each constructor stands for one distinct message format in
the source. -/
inductive CsvLog
  /-- WARNING `输入的CSV内容为空。` (empty input) -/
  | emptyInput
  /-- WARNING `CSV文件第 {i+2} 行数据格式无效，已跳过: {row}`
  (row with unparseable digit fields; `i` is the 0-based data-row index) -/
  | rowSkipped (i : Nat) (row : List String)
  /-- ERROR `解析CSV数据时发生严重错误: {e}` (outer `except` clause) -/
  | parseError
  /-- WARNING `未能从CSV中解析到任何有效的开奖数据。` (no valid records) -/
  | noValidRecords
deriving DecidableEq

/-- What the row loop does with one CSV row. -/
inductive RowOutcome
  /-- fails `len(row) >= 4 and re.match(r'^\d{4,7}$', row[0])`: silently ignored -/
  | notCandidate
  /-- some `int(...)` conversion raised `ValueError`: warning, skipped -/
  | badParse
  /-- a digit outside `[0, 9]`: silent `continue` -/
  | outOfRange
  /-- valid record: inserted into the period map and the period list -/
  | valid (period : String) (numbers : List Int)

/-- `re.match(r'^\d{4,7}$', s)`: 4 to 7 decimal digits. -/
def isPeriodCode (s : String) : Bool :=
  4 ≤ s.length && s.length ≤ 7 && s.data.all isDigitPy

/-- One iteration of the row loop of `get_period_data_from_csv`
(lines 105–114). -/
def classifyRow (row : List String) : RowOutcome :=
  match row with
  | p :: f1 :: f2 :: f3 :: _ =>
    if isPeriodCode p then
      match parseIntPy f1, parseIntPy f2, parseIntPy f3 with
      | some a, some b, some c =>
        if [a, b, c].all (fun n => 0 ≤ n && n ≤ 9) then .valid p [a, b, c]
        else .outOfRange
      | _, _, _ => .badParse
    else .notCandidate
  | _ => .notCandidate

/-- The `period_map` dict: association list with unique keys; `d[k] = v`
updates an existing key in place (Python dicts keep insertion order). -/
def pmInsert : List (String × List Int) → String → List Int → List (String × List Int)
  | [], k, v => [(k, v)]
  | (k0, v0) :: rest, k, v =>
    if k0 = k then (k0, v) :: rest else (k0, v0) :: pmInsert rest k v

/-- `d[k]` / `k in d` on the modelled dict. -/
def pmLookup (m : List (String × List Int)) (k : String) : Option (List Int) :=
  (m.find? (fun e => e.1 = k)).map (fun e => e.2)

/-- The `for i, row in enumerate(reader)` loop (lines 104–114), threading
`period_map`, `periods_list` and the emitted warnings. -/
def csvLoop : List (List String) → Nat → List (String × List Int) → List String →
    List CsvLog → List (String × List Int) × List String × List CsvLog
  | [], _, m, ps, logs => (m, ps, logs)
  | row :: rest, i, m, ps, logs =>
    match classifyRow row with
    | .valid p ns => csvLoop rest (i + 1) (pmInsert m p ns) (ps ++ [p]) logs
    | .badParse => csvLoop rest (i + 1) m ps (logs ++ [.rowSkipped i row])
    | _ => csvLoop rest (i + 1) m ps logs

/-- Comparison used by `sorted(periods_list, key=int)`. -/
def periodRel (a b : String) : Prop :=
  strToNat a ≤ strToNat b

instance : DecidableRel periodRel :=
  fun a b => Nat.decLe (strToNat a) (strToNat b)

instance : IsTotal String periodRel :=
  ⟨fun a b => Nat.le_total (strToNat a) (strToNat b)⟩

instance : IsTrans String periodRel :=
  ⟨fun _ _ _ => Nat.le_trans⟩

/-- `sorted(periods_list, key=int)`: a stable sort by the numeric value of
the period code (modelled by stable insertion sort). -/
def sortPeriods (ps : List String) : List String :=
  List.insertionSort periodRel ps

/-- A CSV field list, as produced by `csv.reader` on simple
comma-separated rows (the draw dataset contains no quoted fields). -/
def rowFields (line : List Char) : List String :=
  (splitOnChar ',' line).map (fun cs => String.mk cs)

/-- `get_period_data_from_csv` (lines 84–123).  Returns the Python result
pair — `(None, None)` is `none`, `(period_map, sorted(periods_list,
key=int))` is `some` — together with the log events emitted on the way. -/
def get_period_data_from_csv (csv : String) :
    Option (List (String × List Int) × List String) × List CsvLog :=
  if csv = "" then (none, [.emptyInput])
  else
    match splitlinesPy csv.data with
    | [] => (none, [.parseError])
    | _header :: rows =>
      let (m, ps, logs) := csvLoop (rows.map rowFields) 0 [] [] []
      if m = [] then (none, logs ++ [.noValidRecords])
      else (some (m, sortPeriods ps), logs)

/-- Specification-side view: the valid draw records of a dataset, one per
valid row, in file order. -/
def validRecords (csv : String) : List (String × List Int) :=
  match splitlinesPy csv.data with
  | [] => []
  | _header :: rows =>
    (rows.map rowFields).filterMap (fun row =>
      match classifyRow row with
      | .valid p ns => some (p, ns)
      | _ => none)

/-! ### Report Locator (`find_matching_report`, lines 125–160) -/

/-- A candidate report file: its path and the result of
`robust_file_read` on it (`none` when missing/undecodable). -/
structure RFile where
  path : String
  content : Option String

/-- Attempt of `分析基于数据:\s*截至\s*(\d+)\s*期` at the head of the text;
returns the captured digit group.  Each starred class is disjoint from the
literal that follows it, so maximal munch is exact. -/
def matchCutoffAt (l : List Char) : Option (List Char) :=
  match l with
  | '分' :: '析' :: '基' :: '于' :: '数' :: '据' :: ':' :: cs =>
    match cs.dropWhile isSpacePy with
    | '截' :: '至' :: cs2 =>
      let cs3 := cs2.dropWhile isSpacePy
      let ds := cs3.takeWhile isDigitPy
      if ds = [] then none
      else
        match (cs3.dropWhile isDigitPy).dropWhile isSpacePy with
        | '期' :: _ => some ds
        | _ => none
    | _ => none
  | _ => none

/-- `re.search` of the cutoff-period marker: first match anywhere. -/
def searchCutoff : List Char → Option (List Char)
  | [] => none
  | c :: cs =>
    match matchCutoffAt (c :: cs) with
    | some ds => some ds
    | none => searchCutoff cs

/-- `re.search(r'_(\d{8}_\d{6})\.txt$', path)`: the filename must end in
`_` + 8 digits + `_` + 6 digits + `.txt`; returns (8-digit, 6-digit)
groups.  The pattern is end-anchored and of fixed shape, so matching the
suffix is exact. -/
def tsSuffix (path : String) : Option (List Char × List Char) :=
  match path.data.reverse with
  | 't' :: 'x' :: 't' :: '.' :: rest =>
    let s6 := rest.take 6
    if s6.length = 6 && s6.all isDigitPy then
      match rest.drop 6 with
      | '_' :: rest2 =>
        let s8 := rest2.take 8
        if s8.length = 8 && s8.all isDigitPy then
          match rest2.drop 8 with
          | '_' :: _ => some (s8.reverse, s6.reverse)
          | _ => none
        else none
      | _ => none
    else none
  | _ => none

/-- Gregorian leap year, as used by `datetime`. -/
def leapYear (y : Nat) : Bool :=
  (y % 4 = 0 && y % 100 ≠ 0) || y % 400 = 0

/-- Days in a month, as used by `datetime`. -/
def daysInMonth (y m : Nat) : Nat :=
  if m = 2 then (if leapYear y then 29 else 28)
  else if m = 4 || m = 6 || m = 9 || m = 11 then 30
  else 31

/-- Validity condition of `datetime.strptime(ts, "%Y%m%d_%H%M%S")`
(otherwise `ValueError`). -/
def validDateTime (y mo d h mi s : Nat) : Bool :=
  1 ≤ y && 1 ≤ mo && mo ≤ 12 && 1 ≤ d && d ≤ daysInMonth y mo &&
  h ≤ 23 && mi ≤ 59 && s ≤ 59

/-- `datetime.strptime` result encoded as one natural number whose order
is chronological order. -/
def parseTimestamp (path : String) : Option Nat :=
  match tsSuffix path with
  | none => none
  | some (d8, d6) =>
    let y := natOfDigits (d8.take 4)
    let mo := natOfDigits ((d8.drop 4).take 2)
    let d := natOfDigits (d8.drop 6)
    let h := natOfDigits (d6.take 2)
    let mi := natOfDigits ((d6.drop 2).take 2)
    let s := natOfDigits (d6.drop 4)
    if validDateTime y mo d h mi s then
      some (((((y * 100 + mo) * 100 + d) * 100 + h) * 100 + mi) * 100 + s)
    else none

/-- The body of the candidate-collection loop of `find_matching_report`
(lines 138–151) for one globbed file: `some (timestamp, path)` iff the
file is readable with non-empty text, declares the target cutoff period,
and carries a parseable filename timestamp. -/
def candidateOf (target : String) (f : RFile) : Option (Nat × String) :=
  match f.content with
  | none => none
  | some content =>
    if content = "" then none
    else
      match searchCutoff content.data with
      | some ds =>
        if String.mk ds = target then
          match parseTimestamp f.path with
          | some ts => some (ts, f.path)
          | none => none
        else none
      | none => none

/-- Order used by `candidates.sort(reverse=True)` on `(timestamp, path)`
tuples: descending Python tuple order (`candRel a b` ↔ `b ≤ a`
lexicographically). -/
def candRel (a b : Nat × String) : Prop :=
  b.1 < a.1 ∨ (b.1 = a.1 ∧ (b.2 < a.2 ∨ b.2 = a.2))

instance : DecidableRel candRel :=
  fun a b => inferInstanceAs (Decidable (_ ∨ _ ∧ (_ ∨ _)))

instance : IsTotal (Nat × String) candRel := by
  constructor
  intro a b
  rcases Nat.lt_trichotomy a.1 b.1 with h | h | h
  · exact Or.inr (Or.inl h)
  · rcases lt_trichotomy a.2 b.2 with h2 | h2 | h2
    · exact Or.inr (Or.inr ⟨h, Or.inl h2⟩)
    · exact Or.inl (Or.inr ⟨h.symm, Or.inr h2.symm⟩)
    · exact Or.inl (Or.inr ⟨h.symm, Or.inl h2⟩)
  · exact Or.inl (Or.inl h)

instance : IsTrans (Nat × String) candRel := by
  constructor
  intro a b c hab hbc
  rcases hab with h1 | ⟨h1, h1s⟩
  · rcases hbc with h2 | ⟨h2, _⟩
    · exact Or.inl (Nat.lt_trans h2 h1)
    · exact Or.inl (h2 ▸ h1)
  · rcases hbc with h2 | ⟨h2, h2s⟩
    · exact Or.inl (h1 ▸ h2)
    · refine Or.inr ⟨h2.trans h1, ?_⟩
      rcases h1s with h1s | h1s
      · rcases h2s with h2s | h2s
        · exact Or.inl (lt_trans h2s h1s)
        · exact Or.inl (h2s ▸ h1s)
      · rcases h2s with h2s | h2s
        · exact Or.inl (h1s ▸ h2s)
        · exact Or.inr (h2s.trans h1s)

/-- `find_matching_report(target_period)` over an explicit list of globbed
files: collect candidates, `sort(reverse=True)` (stable descending, so
index 0 is the maximum by `(timestamp, path)`), return its path. -/
def find_matching_report (target : String) (files : List RFile) : Option String :=
  let candidates := files.filterMap (candidateOf target)
  ((List.insertionSort candRel candidates).head?).map (fun c => c.2)

/-! ### Ticket Extractor (`parse_recommendations_from_report`, lines 162–187) -/

/-- The bracket-body character class `[0-9\s,]`. -/
def isBodyChar (c : Char) : Bool :=
  isDigitPy c || isSpacePy c || c = ','

/-- Attempt of `注\s*\d+:\s*\[([0-9\s,]+)\]` at the head of the text;
returns `(captured bracket body, rest of the text after the match)`.
Every starred/plussed class here is disjoint from the literal that follows
it, so deterministic maximal munch is exactly the regex semantics. -/
def matchTicketAt (l : List Char) : Option (List Char × List Char) :=
  match l with
  | '注' :: cs =>
    let cs1 := cs.dropWhile isSpacePy
    let ds := cs1.takeWhile isDigitPy
    if ds = [] then none
    else
      match cs1.dropWhile isDigitPy with
      | ':' :: cs3 =>
        match cs3.dropWhile isSpacePy with
        | '[' :: cs5 =>
          let body := cs5.takeWhile isBodyChar
          if body = [] then none
          else
            match cs5.dropWhile isBodyChar with
            | ']' :: cs7 => some (body, cs7)
            | _ => none
        | _ => none
      | _ => none
  | _ => none

/-- Fuelled scanner for `rec_pattern.finditer(content)`: non-overlapping
matches, scanning left to right and resuming after each match.  The fuel
only bounds recursion depth; `findTickets` supplies enough fuel that it is
never exhausted (each step consumes at least one character). -/
def findTicketsAux : Nat → List Char → List (List Char)
  | 0, _ => []
  | _ + 1, [] => []
  | fuel + 1, c :: cs =>
    match matchTicketAt (c :: cs) with
    | some (body, rest) => body :: findTicketsAux fuel rest
    | none => findTicketsAux fuel cs

/-- All capture groups of `rec_pattern.finditer(content)`, in order. -/
def findTickets (l : List Char) : List (List Char) :=
  findTicketsAux l.length l

/-- `[int(x.strip()) for x in re.findall(r'\d', numbers_str)]`: every
individual digit character of the capture, in order. -/
def extractDigits (body : List Char) : List Int :=
  (body.filter isDigitPy).map digitVal

/-- Per-match processing of the loop body (lines 176–184): keep the
ticket iff exactly 3 digits were extracted and each is in `[0, 9]`. -/
def toTicket (body : List Char) : Option (List Int) :=
  let numbers := extractDigits body
  if numbers.length = 3 ∧ numbers.all (fun n => 0 ≤ n && n ≤ 9) then some numbers
  else none

/-- `parse_recommendations_from_report(content)`. -/
def parse_recommendations_from_report (content : String) : List (List Int) :=
  (findTickets content.data).filterMap toTicket

/-! ### Prize Engine (`calculate_prize`, lines 189–240) -/

/-- One element of the `winning_details` list. -/
structure WinDetail where
  ticket_id : Nat
  numbers : List Int
  prize_level : String
  amount : Int
deriving DecidableEq

/-- `prize_counts[level] = prize_counts.get(level, 0) + 1`. -/
def countsInc : List (String × Int) → String → List (String × Int)
  | [], k => [(k, 1)]
  | (k0, v0) :: rest, k =>
    if k0 = k then (k0, v0 + 1) :: rest else (k0, v0) :: countsInc rest k

/-- The `for i, rec_numbers in enumerate(recommendations)` loop of
`calculate_prize`, threading `(total_prize, prize_counts,
winning_details)`. -/
def cpGo (prize : List Int) : List (List Int) → Nat → Int → List (String × Int) →
    List WinDetail → Int × List (String × Int) × List WinDetail
  | [], _, total, counts, details => (total, counts, details)
  | rec :: rest, i, total, counts, details =>
    if rec = prize then
      let amt := prizeLookup "直选"
      cpGo prize rest (i + 1) (total + amt) (countsInc counts "直选")
        (details ++ [⟨i + 1, rec, "直选", amt⟩])
    else if rec.toFinset = prize.toFinset then
      let lvl := if rec.toFinset.card = 3 then "组选6" else "组选3"
      let amt := prizeLookup lvl
      cpGo prize rest (i + 1) (total + amt) (countsInc counts lvl)
        (details ++ [⟨i + 1, rec, lvl, amt⟩])
    else cpGo prize rest (i + 1) total counts details

/-- `calculate_prize(recommendations, prize_numbers)`. -/
def calculate_prize (recommendations : List (List Int)) (prize_numbers : List Int) :
    Int × List (String × Int) × List WinDetail :=
  cpGo prize_numbers recommendations 0 0 [] []

/-- Classification of a single ticket, read off the branch structure of
the loop body (lines 205–238); used to state and prove the per-ticket
characterisation of `calculate_prize`. -/
def classify (prize rec : List Int) : Option (String × Int) :=
  if rec = prize then some ("直选", prizeLookup "直选")
  else if rec.toFinset = prize.toFinset then
    if rec.toFinset.card = 3 then some ("组选6", prizeLookup "组选6")
    else some ("组选3", prizeLookup "组选3")
  else none

/-- The `winning_details` produced for a ticket list starting at 0-based
index `i0`. -/
def detailsFrom (prize : List Int) : List (List Int) → Nat → List WinDetail
  | [], _ => []
  | rec :: rest, i =>
    match classify prize rec with
    | some la => ⟨i + 1, rec, la.1, la.2⟩ :: detailsFrom prize rest (i + 1)
    | none => detailsFrom prize rest (i + 1)

/-! ### Rotating Report Writer (`manage_report`, lines 255–303) and
`format_winning_details` (lines 242–253) -/

/-- `f"{ns[0]}{ns[1]}{ns[2]}"` for a draw/ticket triple (always length 3
at the call sites). -/
def join3 (ns : List Int) : String :=
  match ns with
  | [a, b, c] => toString a ++ toString b ++ toString c
  | _ => ""

/-- `format_winning_details(winning_details, prize_numbers)`. -/
def format_winning_details (winning_details : List WinDetail)
    (prize_numbers : List Int) : List String :=
  if winning_details = [] then ["本期推荐号码未中奖。"]
  else
    ("开奖号码: " ++ join3 prize_numbers) :: "" ::
      winning_details.map (fun d =>
        "第" ++ toString d.ticket_id ++ "注: " ++ join3 d.numbers ++ " - " ++
          d.prize_level ++ " - " ++ toString d.amount ++ "元")

/-- The `new_entry` dict passed to `manage_report`. -/
structure ReportEntry where
  timestamp : String
  period : String
  prize_numbers : String
  total_recommendations : Nat
  winning_count : Nat
  total_prize : Int
  winning_details : List String
deriving DecidableEq

/-- The `"=" * 60` separator line. -/
def sepLine : String :=
  String.mk (List.replicate 60 '=')

/-- Reading existing persisted text via `robust_file_read`, treating a
missing/unreadable file (`None`) as empty text, and likewise the
`csv_content or ""` pattern at every read site. -/
def contentOf : Option String → String
  | some s => s
  | none => ""

/-- The `new_content_lines` built for a `new_entry` (lines 268–282). -/
def entryLines (e : ReportEntry) : List String :=
  ["评估时间: " ++ e.timestamp,
   "评估期号: " ++ e.period,
   "开奖号码: " ++ e.prize_numbers,
   "推荐数量: " ++ toString e.total_recommendations,
   "中奖注数: " ++ toString e.winning_count,
   "总奖金: " ++ toString e.total_prize ++ "元",
   ""] ++ e.winning_details ++ ["", sepLine, ""]

/-- The `new_content_lines` built for a `new_error` (lines 284–289);
`now` is `datetime.now().strftime('%Y-%m-%d %H:%M:%S')`. -/
def errorLines (now msg : String) : List String :=
  ["错误时间: " ++ now, "错误信息: " ++ msg, "", sepLine, ""]

/-- `manage_report(new_entry, new_error)`: returns the full text written
back to `latest_pls_calculation.txt`.  `existing` is the current state of
that file (`none`: missing, or unreadable under every encoding — both are
treated as empty text by lines 261–263). -/
def manage_report (new_entry : Option ReportEntry) (new_error : Option String)
    (now : String) (existing : Option String) : String :=
  let existing_content := contentOf existing
  let new_content_lines :=
    (match new_entry with | some e => entryLines e | none => []) ++
    (match new_error with | some msg => errorLines now msg | none => [])
  if new_content_lines = [] then existing_content
  else joinNl new_content_lines ++ "\n" ++ existing_content

/-! ### Orchestrator (`main_process`, lines 305–382) -/

/-- The file-system and clock state one run of `main_process` sees. -/
structure Env where
  /-- `robust_file_read(csv_path)` -/
  csv_content : Option String
  /-- the glob results for `pls_analysis_output_*.txt`, with contents -/
  report_files : List RFile
  /-- current content of `latest_pls_calculation.txt` -/
  existing_log : Option String
  /-- `datetime.now().strftime('%Y-%m-%d %H:%M:%S')` -/
  now : String

/-- Re-reading a located report file (`robust_file_read(report_file)`). -/
def readReport (files : List RFile) (path : String) : Option String :=
  (files.find? (fun f => f.path = path)).bind (fun f => f.content)

/-- Lines 332–365 of the `try:` body: locate the analysis report for the
cutoff period, re-read and parse it, look up the draw, score the tickets
(`eval_period`/`data_cutoff_period` already determined). -/
def mainRunTail (env : Env) (period_data : List (String × List Int))
    (eval_period data_cutoff_period : String) : Except String ReportEntry :=
  match find_matching_report data_cutoff_period env.report_files with
  | none => .error ("未找到数据截止期为 " ++ data_cutoff_period ++ " 的分析报告")
  | some report_file =>
    let report_content := contentOf (readReport env.report_files report_file)
    if report_content = "" then .error ("无法读取报告文件: " ++ report_file)
    else
      let recommendations := parse_recommendations_from_report report_content
      if recommendations = [] then .error "报告中未找到有效的推荐号码"
      else
        match pmLookup period_data eval_period with
        | none => .error ("KeyError: " ++ eval_period)
        | some prize_numbers =>
          let r := calculate_prize recommendations prize_numbers
          .ok
            { timestamp := env.now
              period := eval_period
              prize_numbers := join3 prize_numbers
              total_recommendations := recommendations.length
              winning_count := r.2.2.length
              total_prize := r.1
              winning_details := format_winning_details r.2.2 prize_numbers }

/-- The `try:` body of `main_process` (lines 307–376): every `raise`
becomes `Except.error` with the raised message. -/
def mainRun (env : Env) : Except String ReportEntry :=
  let csv := contentOf env.csv_content
  if csv = "" then .error ("无法读取数据文件: " ++ CSV_FILE)
  else
    match (get_period_data_from_csv csv).1 with
    | none => .error "未能解析到有效的开奖数据"
    | some (period_data, periods) =>
      if period_data = [] ∨ periods = [] then .error "未能解析到有效的开奖数据"
      else if periods.length < 2 then .error "数据不足，至少需要2期数据"
      else
        match periods.reverse with
        | eval_period :: data_cutoff_period :: _ =>
          mainRunTail env period_data eval_period data_cutoff_period
        | _ => .error "数据不足，至少需要2期数据"

/-- `main_process()`: the success path persists the outcome entry, the
`except` boundary (lines 378–382) persists the error message prefixed
with `验证过程发生错误: `; either way the run returns normally.  The
result is the new content of `latest_pls_calculation.txt`. -/
def main_process (env : Env) : String :=
  match mainRun env with
  | .error msg =>
    manage_report none (some ("验证过程发生错误: " ++ msg)) env.now env.existing_log
  | .ok entry => manage_report (some entry) none env.now env.existing_log

/-! ### Theorems: Rotating Report Writer (claims about `manage_report`) -/

/-- The full outcome block `manage_report` prepends for a `new_entry`. -/
def outcomeBlock (e : ReportEntry) : String :=
  joinNl (entryLines e) ++ "\n"

/-- The full error block `manage_report` prepends for a `new_error`. -/
def errorBlock (now msg : String) : String :=
  joinNl (errorLines now msg) ++ "\n"

theorem entryLines_ne_nil (e : ReportEntry) : entryLines e ≠ [] := by
  simp [entryLines]

theorem manage_report_entry_eq (e : ReportEntry) (err : Option String)
    (now : String) (existing : Option String) :
    manage_report (some e) err now existing =
      joinNl (entryLines e ++ (match err with | some msg => errorLines now msg | none => []))
        ++ "\n" ++ contentOf existing := by
  cases err <;> cases existing <;> simp [manage_report, contentOf, entryLines, errorLines]

theorem manage_report_error_eq (now msg : String) (existing : Option String) :
    manage_report none (some msg) now existing = errorBlock now msg ++ contentOf existing := by
  cases existing <;> simp [manage_report, errorBlock, contentOf, errorLines, String.append_assoc]

theorem manage_report_outcome_eq (e : ReportEntry) (now : String) (existing : Option String) :
    manage_report (some e) none now existing = outcomeBlock e ++ contentOf existing := by
  cases existing <;>
    simp [manage_report, outcomeBlock, contentOf, entryLines, String.append_assoc]

/-- C10: calling `manage_report` with neither a new outcome record nor a
new error record rewrites the persisted log with exactly its previous
content. -/
theorem manage_report_no_record_frame (now s : String) :
    manage_report none none now (some s) = s := by
  simp [manage_report, contentOf]

/-- C8: for every new outcome or error record, `manage_report` writes the
new record's block (the text it would write over an empty log) followed by
the entire previous content — prepend, not append — and a missing file is
treated as empty previous content. -/
theorem manage_report_prepends (e : Option ReportEntry) (err : Option String)
    (now : String) (existing : Option String) :
    e.isSome = true ∨ err.isSome = true →
    manage_report e err now existing =
      manage_report e err now (some "") ++ contentOf existing ∧
    manage_report e err now none = manage_report e err now (some "") := by
  intro h
  cases e with
  | some e0 =>
    cases err with
    | some msg =>
      refine ⟨?_, ?_⟩ <;>
        simp [manage_report_entry_eq, contentOf, String.append_empty, String.append_assoc]
    | none =>
      refine ⟨?_, ?_⟩ <;>
        simp [manage_report_outcome_eq, contentOf, String.append_empty, String.append_assoc]
  | none =>
    cases err with
    | some msg =>
      refine ⟨?_, ?_⟩ <;>
        simp [manage_report_error_eq, contentOf, String.append_empty, String.append_assoc]
    | none => simp at h

/-- Witness for C8 at a concrete error record and existing log. -/
theorem manage_report_prepends_witness :
    ((none : Option ReportEntry).isSome = true ∨ (some "boom").isSome = true) ∧
    (manage_report none (some "boom") "T" (some "OLD") =
      manage_report none (some "boom") "T" (some "") ++ contentOf (some "OLD") ∧
     manage_report none (some "boom") "T" none =
      manage_report none (some "boom") "T" (some "")) :=
  ⟨Or.inr rfl, manage_report_prepends none (some "boom") "T" (some "OLD") (Or.inr rfl)⟩

/-- Successive orchestrator runs each appending one outcome record via the
writer (the persisted log threaded through). -/
def insertEntries (now : String) (es : List ReportEntry) (log : String) : String :=
  es.foldl (fun acc e => manage_report (some e) none now (some acc)) log

theorem insertEntries_keeps_log (now : String) :
    ∀ (es : List ReportEntry) (log : String),
      ∃ pre, insertEntries now es log = pre ++ log := by
  intro es
  induction es with
  | nil => exact fun log => ⟨"", (String.empty_append log).symm⟩
  | cons e rest ih =>
    intro log
    obtain ⟨pre, hpre⟩ := ih (manage_report (some e) none now (some log))
    refine ⟨pre ++ outcomeBlock e, ?_⟩
    rw [insertEntries] at hpre ⊢
    simp only [List.foldl_cons]
    rw [hpre, manage_report_outcome_eq, contentOf, String.append_assoc]

/-- A deterministic batch of `MAX_NORMAL_RECORDS + 1` distinct outcome
records. -/
def demoEntry (n : Nat) : ReportEntry :=
  { timestamp := "2024-01-01 00:00:0" ++ toString n
    period := toString (1000 + n)
    prize_numbers := "123"
    total_recommendations := 1
    winning_count := 0
    total_prize := 0
    winning_details := ["本期推荐号码未中奖。"] }

/-- C3 (divergence witness): after inserting `MAX_NORMAL_RECORDS + 1 = 11`
outcome records into an initially empty log, the oldest record's block is
still present (it is a suffix of the persisted content): `manage_report`
never reads `MAX_NORMAL_RECORDS`/`MAX_ERROR_LOGS` and never trims, so no
entry beyond the stated retention limit is absent. -/
theorem rotation_never_trims :
    ((List.range (MAX_NORMAL_RECORDS + 1)).map demoEntry).length = MAX_NORMAL_RECORDS + 1 ∧
    ∃ pre,
      insertEntries "T" ((List.range (MAX_NORMAL_RECORDS + 1)).map demoEntry) "" =
        pre ++ outcomeBlock (demoEntry 0) := by
  refine ⟨by decide, ?_⟩
  have h0 : insertEntries "T" ((List.range (MAX_NORMAL_RECORDS + 1)).map demoEntry) "" =
      insertEntries "T" ((List.range MAX_NORMAL_RECORDS).map (fun n => demoEntry (n + 1)))
        (outcomeBlock (demoEntry 0)) := by
    show insertEntries "T" (demoEntry 0 :: (List.range MAX_NORMAL_RECORDS).map
      (fun n => demoEntry (n + 1))) "" = _
    rw [insertEntries, List.foldl_cons, manage_report_outcome_eq]
    rfl
  obtain ⟨pre, hpre⟩ :=
    insertEntries_keeps_log "T" ((List.range MAX_NORMAL_RECORDS).map (fun n => demoEntry (n + 1)))
      (outcomeBlock (demoEntry 0))
  exact ⟨pre, by rw [h0, hpre]⟩

/-! ### Theorems: Draw History Store -/

/-- The valid records of a list of already-split rows, in order. -/
def rowsValid (rows : List (List String)) : List (String × List Int) :=
  rows.filterMap (fun row =>
    match classifyRow row with
    | .valid p ns => some (p, ns)
    | _ => none)

theorem csvLoop_spec :
    ∀ (rows : List (List String)) (i : Nat) (m : List (String × List Int))
      (ps : List String) (logs : List CsvLog),
      (csvLoop rows i m ps logs).1 =
        (rowsValid rows).foldl (fun m r => pmInsert m r.1 r.2) m ∧
      (csvLoop rows i m ps logs).2.1 = ps ++ (rowsValid rows).map (fun r => r.1) := by
  intro rows
  induction rows with
  | nil => intro i m ps logs; simp [csvLoop, rowsValid]
  | cons row rest ih =>
    intro i m ps logs
    rw [csvLoop, rowsValid, List.filterMap_cons]
    cases h : classifyRow row with
    | valid p ns =>
      simpa [h, rowsValid] using ih (i + 1) (pmInsert m p ns) (ps ++ [p]) logs
    | badParse => simpa [h, rowsValid] using ih (i + 1) m ps (logs ++ [.rowSkipped i row])
    | notCandidate => simpa [h, rowsValid] using ih (i + 1) m ps logs
    | outOfRange => simpa [h, rowsValid] using ih (i + 1) m ps logs

theorem pmLookup_cons (k0 : String) (v0 : List Int) (rest : List (String × List Int))
    (q : String) :
    pmLookup ((k0, v0) :: rest) q = if k0 = q then some v0 else pmLookup rest q := by
  by_cases h : k0 = q
  · rw [pmLookup, List.find?_cons_of_pos _ (by simpa using h), if_pos h]
    rfl
  · rw [pmLookup, List.find?_cons_of_neg _ (by simpa using h), if_neg h]
    rfl

theorem pmLookup_pmInsert (k q : String) (v : List Int) :
    ∀ m, pmLookup (pmInsert m k v) q = if q = k then some v else pmLookup m q := by
  intro m
  induction m with
  | nil =>
    show pmLookup [(k, v)] q = _
    rw [pmLookup_cons]
    by_cases hq : q = k
    · rw [if_pos hq.symm, if_pos hq]
    · rw [if_neg (fun h => hq h.symm), if_neg hq]
  | cons e rest ih =>
    obtain ⟨k0, v0⟩ := e
    show pmLookup (if k0 = k then (k0, v) :: rest else (k0, v0) :: pmInsert rest k v) q = _
    by_cases h0 : k0 = k
    · subst h0
      rw [if_pos rfl, pmLookup_cons, pmLookup_cons]
      by_cases hq : q = k0
      · rw [if_pos hq.symm, if_pos hq]
      · rw [if_neg (fun h => hq h.symm), if_neg hq, if_neg (fun h => hq h.symm)]
    · rw [if_neg h0, pmLookup_cons, pmLookup_cons, ih]
      by_cases hq : k0 = q
      · rw [if_pos hq, if_pos hq, if_neg (fun h : q = k => h0 (hq.trans h))]
      · rw [if_neg hq, if_neg hq]

theorem pmLookup_foldl (q : String) :
    ∀ (recs : List (String × List Int)) (m : List (String × List Int)),
      pmLookup (recs.foldl (fun m r => pmInsert m r.1 r.2) m) q =
        match (recs.filter (fun r => r.1 = q)).getLast? with
        | some r => some r.2
        | none => pmLookup m q := by
  intro recs
  induction recs with
  | nil => intro m; simp
  | cons r rest ih =>
    intro m
    rw [List.foldl_cons, ih, List.filter_cons]
    by_cases hr : r.1 = q
    · rw [if_pos (by simpa using hr)]
      cases hlast : (rest.filter (fun r => decide (r.1 = q))).getLast? with
      | some x => rw [List.getLast?_cons, hlast]; rfl
      | none =>
        rw [List.getLast?_cons, hlast, pmLookup_pmInsert, if_pos hr.symm]; rfl
    · rw [if_neg (by simpa using hr)]
      cases hlast : (rest.filter (fun r => decide (r.1 = q))).getLast? with
      | some x => rfl
      | none => rw [pmLookup_pmInsert, if_neg (fun h => hr h.symm)]

theorem splitOnChar_ne_nil (sep : Char) : ∀ l : List Char, splitOnChar sep l ≠ [] := by
  intro l
  induction l with
  | nil => simp [splitOnChar]
  | cons c cs ih =>
    rw [splitOnChar]
    cases h : splitOnChar sep cs with
    | nil => simp
    | cons r rs => by_cases hc : c = sep <;> simp [hc]

theorem splitOnChar_length_of_mem (sep : Char) :
    ∀ l : List Char, sep ∈ l → 2 ≤ (splitOnChar sep l).length := by
  intro l
  induction l with
  | nil => intro h; cases h
  | cons c cs ih =>
    intro hmem
    rw [splitOnChar]
    cases h : splitOnChar sep cs with
    | nil => exact absurd h (splitOnChar_ne_nil sep cs)
    | cons r rs =>
      by_cases hc : c = sep
      · simp [hc]
      · have hcs : sep ∈ cs := by
          cases hmem with
          | head => exact absurd rfl hc
          | tail _ h2 => exact h2
        have h2 := ih hcs
        rw [h] at h2
        simp only [List.length_cons] at h2
        simp [hc]
        omega

theorem splitlinesPy_ne_nil : ∀ l : List Char, l ≠ [] → splitlinesPy l ≠ [] := by
  intro l hl
  cases l with
  | nil => exact absurd rfl hl
  | cons c cs =>
    have hstep : splitlinesPy (c :: cs) =
        (if (c :: cs).getLast? = some '\n' then (splitOnChar '\n' (c :: cs)).dropLast
         else splitOnChar '\n' (c :: cs)) := rfl
    rw [hstep]
    by_cases hlast : (c :: cs).getLast? = some '\n'
    · rw [if_pos hlast]
      have hmem : '\n' ∈ c :: cs := List.mem_of_getLast?_eq_some hlast
      have h2 := splitOnChar_length_of_mem '\n' (c :: cs) hmem
      intro hnil
      have := congrArg List.length hnil
      rw [List.length_dropLast] at this
      simp at this
      omega
    · rw [if_neg hlast]
      exact splitOnChar_ne_nil '\n' (c :: cs)

/-- Unfolding lemma: the value of `get_period_data_from_csv` once the line
split and the row-loop result are known. -/
theorem get_period_data_eq_of_split (csv : String) (hc : csv ≠ "") (hd : List Char)
    (rows : List (List Char)) (hsplit : splitlinesPy csv.data = hd :: rows)
    (m0 : List (String × List Int)) (ps0 : List String) (logs0 : List CsvLog)
    (hloop : csvLoop (rows.map rowFields) 0 [] [] [] = (m0, ps0, logs0)) :
    get_period_data_from_csv csv =
      if m0 = [] then (none, logs0 ++ [CsvLog.noValidRecords])
      else (some (m0, sortPeriods ps0), logs0) := by
  rw [get_period_data_from_csv, if_neg hc]
  simp only [hsplit]
  rw [hloop]

/-- Core shape lemma: a successful `get_period_data_from_csv` result is
the insertion-fold of the valid records over an empty dict paired with the
numerically sorted list of all valid-row periods. -/
theorem get_period_data_shape (csv : String) (m : List (String × List Int))
    (ps : List String) (h : (get_period_data_from_csv csv).1 = some (m, ps)) :
    m = (validRecords csv).foldl (fun m r => pmInsert m r.1 r.2) [] ∧
    ps = sortPeriods ((validRecords csv).map (fun r => r.1)) := by
  by_cases hc : csv = ""
  · rw [get_period_data_from_csv, if_pos hc] at h
    cases h
  · cases hsplit : splitlinesPy csv.data with
    | nil =>
      rw [get_period_data_from_csv, if_neg hc, hsplit] at h
      cases h
    | cons hd rows =>
      rcases hloop : csvLoop (rows.map rowFields) 0 [] [] [] with ⟨m0, ps0, logs0⟩
      rw [get_period_data_eq_of_split csv hc hd rows hsplit m0 ps0 logs0 hloop] at h
      have hspec := csvLoop_spec (rows.map rowFields) 0 [] [] []
      rw [hloop] at hspec
      have hvr : validRecords csv = rowsValid (rows.map rowFields) := by
        rw [validRecords]
        simp only [hsplit]
        rfl
      by_cases hm : m0 = []
      · rw [if_pos hm] at h; cases h
      · rw [if_neg hm] at h
        injection h with h
        injection h with h1 h2
        refine ⟨?_, ?_⟩
        · rw [← h1, hvr, ← hspec.1]
        · rw [← h2, hvr]
          have := hspec.2
          simp only [List.nil_append] at this
          rw [this]

/-- C5: every successfully parsed dataset yields a period list sorted
ascending by the numeric value of the period code (not
lexicographically); in particular the sort the store uses orders `"99"`
before `"100"`. -/
theorem periods_sorted_numerically :
    (∀ (csv : String) (m : List (String × List Int)) (ps : List String),
      (get_period_data_from_csv csv).1 = some (m, ps) →
      ps.Pairwise (fun a b => strToNat a ≤ strToNat b)) ∧
    sortPeriods ["100", "99"] = ["99", "100"] := by
  refine ⟨?_, by decide⟩
  intro csv m ps h
  rw [(get_period_data_shape csv m ps h).2]
  exact List.sorted_insertionSort periodRel ((validRecords csv).map (fun r => r.1))

/-- Witness for C5 on a dataset whose two period codes order differently
numerically (9999 < 10000) than lexicographically ("10000" < "9999"). -/
theorem periods_sorted_numerically_witness :
    ((get_period_data_from_csv "head\n10000,1,2,3\n9999,4,5,6").1 =
      some ([("10000", [1, 2, 3]), ("9999", [4, 5, 6])], ["9999", "10000"])) ∧
    List.Pairwise (fun a b => strToNat a ≤ strToNat b) ["9999", "10000"] :=
  ⟨by decide,
   periods_sorted_numerically.1 "head\n10000,1,2,3\n9999,4,5,6"
     [("10000", [1, 2, 3]), ("9999", [4, 5, 6])] ["9999", "10000"] (by decide)⟩

/-- C4 counterexample: a dataset with two valid rows for period `"1000"`
produces the ordered period list `["1000", "1000"]`, which does contain a
duplicate period identifier — refuting the no-duplicates part of the
claim (while the map shows the later row's digits, last-write-wins). -/
theorem period_list_duplicate_counterexample :
    (get_period_data_from_csv "head\n1000,1,2,3\n1000,4,5,6").1 =
      some ([("1000", [4, 5, 6])], ["1000", "1000"]) ∧
    ¬ (["1000", "1000"] : List String).Nodup := by
  exact ⟨by decide, by decide⟩

/-- C4 amended: in the period map, when several valid rows carry the same
period the later row's digits win (last-write-wins by file order); but the
ordered period list keeps one entry per valid row, so duplicated periods
appear with their full multiplicity (they are not deduplicated). -/
theorem period_map_last_write_wins (csv : String) (m : List (String × List Int))
    (ps : List String) (h : (get_period_data_from_csv csv).1 = some (m, ps)) :
    (∀ p, pmLookup m p =
      (((validRecords csv).filter (fun r => r.1 = p)).getLast?).map (fun r => r.2)) ∧
    (∀ p, ps.count p = ((validRecords csv).map (fun r => r.1)).count p) := by
  obtain ⟨hm, hps⟩ := get_period_data_shape csv m ps h
  constructor
  · intro p
    rw [hm, pmLookup_foldl]
    cases hlast : ((validRecords csv).filter (fun r => r.1 = p)).getLast? with
    | some x => rfl
    | none => rfl
  · intro p
    rw [hps]
    exact (List.perm_insertionSort periodRel _).count_eq p

/-- Witness for C4 amended at the duplicated-period dataset. -/
theorem period_map_last_write_wins_witness :
    ((get_period_data_from_csv "head\n1000,1,2,3\n1000,4,5,6").1 =
      some ([("1000", [4, 5, 6])], ["1000", "1000"])) ∧
    pmLookup [("1000", [4, 5, 6])] "1000" =
      (((validRecords "head\n1000,1,2,3\n1000,4,5,6").filter
        (fun r => r.1 = "1000")).getLast?).map (fun r => r.2) :=
  ⟨by decide,
   (period_map_last_write_wins "head\n1000,1,2,3\n1000,4,5,6"
     [("1000", [4, 5, 6])] ["1000", "1000"] (by decide)).1 "1000"⟩

/-- C9 counterexample: the empty-input failure and the
no-valid-records failure return the identical Python value
`(None, None)`; the two failure kinds are not distinguishable in the
function's returned result. -/
theorem csv_failures_indistinguishable_counterexample :
    (get_period_data_from_csv "").1 = none ∧
    ("head\n12,3,4,5" : String) ≠ "" ∧
    validRecords "head\n12,3,4,5" = [] ∧
    (get_period_data_from_csv "head\n12,3,4,5").1 = none ∧
    (get_period_data_from_csv "").1 = (get_period_data_from_csv "head\n12,3,4,5").1 := by
  refine ⟨by decide, by decide, by decide, by decide, by decide⟩

/-- C9 amended: empty/missing input and a non-empty input with zero valid
rows both return `(None, None)`; they are distinguished only by the
distinct warning events logged to the console, not by the returned
result. -/
theorem csv_failures_logged_distinctly (csv : String) :
    (csv = "" → get_period_data_from_csv csv = (none, [CsvLog.emptyInput])) ∧
    (csv ≠ "" → validRecords csv = [] →
      (get_period_data_from_csv csv).1 = none ∧
      CsvLog.noValidRecords ∈ (get_period_data_from_csv csv).2) ∧
    CsvLog.emptyInput ≠ CsvLog.noValidRecords := by
  refine ⟨?_, ?_, by decide⟩
  · intro hc
    rw [get_period_data_from_csv, if_pos hc]
  · intro hc hvr
    have hdata : csv.data ≠ [] := by
      intro hd
      apply hc
      cases csv with
      | mk l => cases hd; rfl
    cases hsplit : splitlinesPy csv.data with
    | nil => exact absurd hsplit (splitlinesPy_ne_nil csv.data hdata)
    | cons hd rows =>
      rcases hloop : csvLoop (rows.map rowFields) 0 [] [] [] with ⟨m0, ps0, logs0⟩
      have hspec := csvLoop_spec (rows.map rowFields) 0 [] [] []
      rw [hloop] at hspec
      have hvr2 : rowsValid (rows.map rowFields) = [] := by
        rw [validRecords, hsplit] at hvr
        exact hvr
      have hm0 : m0 = [] := by
        have := hspec.1
        rw [hvr2] at this
        simpa using this
      rw [get_period_data_eq_of_split csv hc hd rows hsplit m0 ps0 logs0 hloop, if_pos hm0]
      exact ⟨rfl, by simp⟩

/-- Witness for C9 amended at the two concrete failing inputs. -/
theorem csv_failures_logged_distinctly_witness :
    (get_period_data_from_csv "" = (none, [CsvLog.emptyInput])) ∧
    (("head\n12,3,4,5" : String) ≠ "") ∧
    ((get_period_data_from_csv "head\n12,3,4,5").1 = none ∧
      CsvLog.noValidRecords ∈ (get_period_data_from_csv "head\n12,3,4,5").2) :=
  ⟨(csv_failures_logged_distinctly "").1 rfl,
   by decide,
   (csv_failures_logged_distinctly "head\n12,3,4,5").2.1 (by decide) (by decide)⟩

/-! ### Theorems: Prize Engine -/

theorem cpGo_details (prize : List Int) :
    ∀ (recs : List (List Int)) (i : Nat) (total : Int) (counts : List (String × Int))
      (details : List WinDetail),
      (cpGo prize recs i total counts details).2.2 = details ++ detailsFrom prize recs i := by
  intro recs
  induction recs with
  | nil => intro i total counts details; simp [cpGo, detailsFrom]
  | cons rec rest ih =>
    intro i total counts details
    rw [cpGo, detailsFrom]
    by_cases h1 : rec = prize
    · rw [if_pos h1, ih, classify, if_pos h1]
      simp
    · rw [if_neg h1, classify, if_neg h1]
      by_cases h2 : rec.toFinset = prize.toFinset
      · rw [if_pos h2, if_pos h2, ih]
        by_cases h3 : rec.toFinset.card = 3
        · rw [if_pos h3, if_pos h3]
          simp
        · rw [if_neg h3, if_neg h3]
          simp
      · rw [if_neg h2, if_neg h2, ih]

theorem detailsFrom_cons_some (prize r : List Int) (rest : List (List Int)) (i : Nat)
    (la : String × Int) (h : classify prize r = some la) :
    detailsFrom prize (r :: rest) i =
      (⟨i + 1, r, la.1, la.2⟩ : WinDetail) :: detailsFrom prize rest (i + 1) := by
  rw [detailsFrom, h]

theorem detailsFrom_cons_none (prize r : List Int) (rest : List (List Int)) (i : Nat)
    (h : classify prize r = none) :
    detailsFrom prize (r :: rest) i = detailsFrom prize rest (i + 1) := by
  rw [detailsFrom, h]

theorem detailsFrom_ticket_id_lb (prize : List Int) :
    ∀ (recs : List (List Int)) (i0 : Nat) (w : WinDetail),
      w ∈ detailsFrom prize recs i0 → i0 + 1 ≤ w.ticket_id := by
  intro recs
  induction recs with
  | nil => intro i0 w hw; cases hw
  | cons rec rest ih =>
    intro i0 w hw
    rw [detailsFrom] at hw
    cases hcl : classify prize rec with
    | some la =>
      rw [hcl] at hw
      cases hw with
      | head => exact Nat.le_refl _
      | tail _ h2 => exact Nat.le_of_succ_le (by simpa using ih (i0 + 1) w h2)
    | none =>
      rw [hcl] at hw
      exact Nat.le_of_succ_le (by simpa using ih (i0 + 1) w hw)

theorem detailsFrom_find? (prize : List Int) :
    ∀ (recs : List (List Int)) (i0 j : Nat) (rec : List Int),
      recs.get? j = some rec →
      (detailsFrom prize recs i0).find? (fun w => w.ticket_id == i0 + j + 1) =
        (classify prize rec).map
          (fun la => (⟨i0 + j + 1, rec, la.1, la.2⟩ : WinDetail)) := by
  intro recs
  induction recs with
  | nil => intro i0 j rec hget; cases hget
  | cons r rest ih =>
    intro i0 j rec hget
    cases j with
    | zero =>
      have hr : r = rec := by simpa using hget
      subst hr
      cases hcl : classify prize r with
      | some la =>
        rw [detailsFrom_cons_some prize r rest i0 la hcl]
        have hpos : ((fun w : WinDetail => w.ticket_id == i0 + 0 + 1)
            ⟨i0 + 1, r, la.1, la.2⟩) = true := by simp
        rw [@List.find?_cons_of_pos WinDetail (fun w => w.ticket_id == i0 + 0 + 1)
          ⟨i0 + 1, r, la.1, la.2⟩ (detailsFrom prize rest (i0 + 1)) hpos]
        rfl
      | none =>
        rw [detailsFrom_cons_none prize r rest i0 hcl]
        have hnone : List.find? (fun w : WinDetail => w.ticket_id == i0 + 0 + 1)
            (detailsFrom prize rest (i0 + 1)) = none := by
          rw [List.find?_eq_none]
          intro w hw
          have := detailsFrom_ticket_id_lb prize rest (i0 + 1) w hw
          simp only [beq_iff_eq]
          omega
        rw [hnone]
        rfl
    | succ j =>
      have hget2 : rest.get? j = some rec := by simpa using hget
      have h := ih (i0 + 1) j rec hget2
      have harith : i0 + 1 + j + 1 = i0 + (j + 1) + 1 := by omega
      rw [harith] at h
      cases hcl : classify prize r with
      | some la =>
        rw [detailsFrom_cons_some prize r rest i0 la hcl]
        have hneg : ¬(((fun w : WinDetail => w.ticket_id == i0 + (j + 1) + 1)
            ⟨i0 + 1, r, la.1, la.2⟩) = true) := by
          simp only [beq_iff_eq]
          omega
        rw [@List.find?_cons_of_neg WinDetail (fun w => w.ticket_id == i0 + (j + 1) + 1)
          ⟨i0 + 1, r, la.1, la.2⟩ (detailsFrom prize rest (i0 + 1)) hneg]
        exact h
      | none =>
        rw [detailsFrom_cons_none prize r rest i0 hcl]
        exact h

theorem detailsFrom_countP (prize : List Int) :
    ∀ (recs : List (List Int)) (i0 n : Nat),
      (detailsFrom prize recs i0).countP (fun w => w.ticket_id == n) ≤ 1 := by
  intro recs
  induction recs with
  | nil => intro i0 n; simp [detailsFrom]
  | cons r rest ih =>
    intro i0 n
    cases hcl : classify prize r with
    | some la =>
      rw [detailsFrom_cons_some prize r rest i0 la hcl, List.countP_cons]
      by_cases hn : i0 + 1 = n
      · have hz : (detailsFrom prize rest (i0 + 1)).countP
            (fun w : WinDetail => w.ticket_id == n) = 0 := by
          rw [List.countP_eq_zero]
          intro w hw
          have := detailsFrom_ticket_id_lb prize rest (i0 + 1) w hw
          simp only [beq_iff_eq]
          omega
        rw [hz]
        simp [hn]
      · have hne : ¬(((⟨i0 + 1, r, la.1, la.2⟩ : WinDetail).ticket_id == n) = true) := by
          simp only [beq_iff_eq]
          exact hn
        rw [if_neg hne]
        simpa using ih (i0 + 1) n
    | none =>
      rw [detailsFrom_cons_none prize r rest i0 hcl]
      exact ih (i0 + 1) n

theorem toFinset_card_three_iff_nodup (rec : List Int) (hrl : rec.length = 3) :
    rec.toFinset.card = 3 ↔ rec.Nodup := by
  constructor
  · intro hc
    rw [List.card_toFinset] at hc
    have hsub : rec.dedup.Sublist rec := List.dedup_sublist rec
    have hlen : rec.dedup.length = rec.length := by rw [hc, hrl]
    have : rec.dedup = rec := hsub.eq_of_length hlen
    rw [← this]
    exact List.nodup_dedup rec
  · intro hnd
    rw [List.toFinset_card_of_nodup hnd, hrl]

/-- C1: for every ticket and draw of three digits in `[0, 9]`, the Prize
Engine assigns, in priority order: an exact element-for-element match wins
`直选` (Exact) with payout 1000; otherwise a ticket whose digit set equals
the draw's digit set wins `组选6` (Group6, payout 167) when its three
digits are pairwise distinct and `组选3` (Group3, payout 333) when it has
a repeated digit; otherwise it wins nothing; and each ticket contributes
at most one winning-details entry (at most one tier). -/
theorem calculate_prize_classification (recs : List (List Int)) (prize : List Int)
    (hpl : prize.length = 3) (hpd : ∀ d ∈ prize, 0 ≤ d ∧ d ≤ 9)
    (i : Nat) (rec : List Int) (hget : recs.get? i = some rec)
    (hrl : rec.length = 3) (hrd : ∀ d ∈ rec, 0 ≤ d ∧ d ≤ 9) :
    ((calculate_prize recs prize).2.2.find? (fun w => w.ticket_id == i + 1) =
      if rec = prize then some ⟨i + 1, rec, "直选", 1000⟩
      else if rec.toFinset = prize.toFinset then
        (if rec.Nodup then some ⟨i + 1, rec, "组选6", 167⟩
         else some ⟨i + 1, rec, "组选3", 333⟩)
      else none) ∧
    (calculate_prize recs prize).2.2.countP (fun w => w.ticket_id == i + 1) ≤ 1 := by
  have hdet : (calculate_prize recs prize).2.2 = detailsFrom prize recs 0 := by
    rw [calculate_prize, cpGo_details]
    simp
  constructor
  · rw [hdet]
    have h := detailsFrom_find? prize recs 0 i rec hget
    simp only [Nat.zero_add] at h
    rw [h, classify]
    by_cases h1 : rec = prize
    · rw [if_pos h1, if_pos h1]
      rfl
    · rw [if_neg h1, if_neg h1]
      by_cases h2 : rec.toFinset = prize.toFinset
      · rw [if_pos h2, if_pos h2]
        by_cases hnd : rec.Nodup
        · rw [if_pos ((toFinset_card_three_iff_nodup rec hrl).2 hnd), if_pos hnd]
          rfl
        · rw [if_neg (fun hc => hnd ((toFinset_card_three_iff_nodup rec hrl).1 hc)),
            if_neg hnd]
          rfl
      · rw [if_neg h2, if_neg h2]
        rfl
  · rw [hdet]
    exact detailsFrom_countP prize recs 0 (i + 1)

/-- Witness for C1: against draw `[1,2,3]`, ticket 2 (`[3,2,1]`, same
digits, different order, pairwise distinct) is classified `组选6` with
payout 167, and carries a single winning-details entry. -/
theorem calculate_prize_classification_witness :
    (([[1, 2, 3], [3, 2, 1], [1, 1, 2], [9, 8, 7]] : List (List Int)).get? 1 =
      some [3, 2, 1]) ∧
    ((calculate_prize [[1, 2, 3], [3, 2, 1], [1, 1, 2], [9, 8, 7]] [1, 2, 3]).2.2.find?
        (fun w => w.ticket_id == 1 + 1) = some ⟨1 + 1, [3, 2, 1], "组选6", 167⟩) ∧
    (calculate_prize [[1, 2, 3], [3, 2, 1], [1, 1, 2], [9, 8, 7]] [1, 2, 3]).2.2.countP
        (fun w => w.ticket_id == 1 + 1) ≤ 1 := by
  have h := calculate_prize_classification [[1, 2, 3], [3, 2, 1], [1, 1, 2], [9, 8, 7]]
    [1, 2, 3] (by decide) (by decide) 1 [3, 2, 1] (by decide) (by decide) (by decide)
  exact ⟨by decide, h.1.trans (by decide), h.2⟩

/-! ### Theorems: Ticket Extractor -/

theorem extractDigits_range (b : List Char) :
    ∀ d ∈ extractDigits b, 0 ≤ d ∧ d ≤ 9 := by
  intro d hd
  rw [extractDigits, List.mem_map] at hd
  obtain ⟨c, hc, hdc⟩ := hd
  have hdig : isDigitPy c = true := (List.mem_filter.1 hc).2
  rw [isDigitPy, Bool.and_eq_true, decide_eq_true_eq, decide_eq_true_eq] at hdig
  have h1 : 48 ≤ c.toNat := hdig.1
  have h2 : c.toNat ≤ 57 := hdig.2
  subst hdc
  rw [digitVal]
  refine ⟨Int.ofNat_nonneg _, ?_⟩
  have h3 : c.toNat - 48 ≤ 9 := by omega
  calc Int.ofNat (c.toNat - 48) ≤ Int.ofNat 9 := Int.ofNat_le.2 h3
    _ = 9 := rfl

theorem toTicket_eq (b : List Char) :
    toTicket b =
      if (extractDigits b).length = 3 then some (extractDigits b) else none := by
  have hall : ((extractDigits b).all (fun n => 0 ≤ n && n ≤ 9)) = true := by
    rw [List.all_eq_true]
    intro n hn
    have := extractDigits_range b n hn
    simp [this.1, this.2]
  rw [toTicket]
  by_cases hl : (extractDigits b).length = 3
  · rw [if_pos hl, if_pos ⟨hl, hall⟩]
  · rw [if_neg hl, if_neg (fun h => hl h.1)]

theorem filterMap_toTicket (l : List (List Char)) :
    l.filterMap toTicket = (l.map extractDigits).filter (fun ns => ns.length = 3) := by
  induction l with
  | nil => rfl
  | cons b rest ih =>
    rw [List.filterMap_cons, toTicket_eq, List.map_cons, List.filter_cons]
    by_cases hl : (extractDigits b).length = 3
    · rw [if_pos hl, if_pos (by simpa using hl), ih]
    · rw [if_neg hl, if_neg (by simpa using hl), ih]

/-- C6: the Ticket Extractor matches `注 N: [ ... ]` segments; within each
matched bracket it extracts every individual decimal digit character in
appearance order regardless of the separators (spaces/commas) used; it
accepts a ticket only when exactly 3 digits were extracted, each in
`[0, 9]`; a malformed capture is silently dropped without aborting the
parse; and output order is the order in which tickets were encountered.
The concrete conjunct shows all of this at once: a 4-digit capture is
dropped while its comma- and space-separated neighbours survive in
order. -/
theorem ticket_extraction_characterisation (content : String) :
    (∀ t ∈ parse_recommendations_from_report content,
      t.length = 3 ∧ ∀ d ∈ t, 0 ≤ d ∧ d ≤ 9) ∧
    parse_recommendations_from_report content =
      ((findTickets content.data).map extractDigits).filter (fun ns => ns.length = 3) ∧
    parse_recommendations_from_report "注 1: [1, 2, 3] 注 2: [4 5 6 7] 注3: [8,9 , 0]" =
      [[1, 2, 3], [8, 9, 0]] := by
  have hchar : parse_recommendations_from_report content =
      ((findTickets content.data).map extractDigits).filter (fun ns => ns.length = 3) :=
    filterMap_toTicket (findTickets content.data)
  refine ⟨?_, hchar, by decide⟩
  intro t ht
  rw [hchar] at ht
  have hmem := List.mem_filter.1 ht
  obtain ⟨b, _, hb⟩ := List.mem_map.1 hmem.1
  refine ⟨by simpa using hmem.2, ?_⟩
  subst hb
  exact extractDigits_range b

/-- Witness for C6: the second surviving ticket of the concrete report
text is well-formed. -/
theorem ticket_extraction_witness :
    (([8, 9, 0] : List Int) ∈
      parse_recommendations_from_report "注 1: [1, 2, 3] 注 2: [4 5 6 7] 注3: [8,9 , 0]") ∧
    (([8, 9, 0] : List Int).length = 3 ∧ ∀ d ∈ ([8, 9, 0] : List Int), 0 ≤ d ∧ d ≤ 9) :=
  ⟨by decide,
   (ticket_extraction_characterisation "注 1: [1, 2, 3] 注 2: [4 5 6 7] 注3: [8,9 , 0]").1
     [8, 9, 0] (by decide)⟩

/-! ### Theorems: Report Locator -/

/-- C2: the Report Locator considers exactly the files that are readable
with non-empty text, declare the target cutoff period, and carry a
parseable `_YYYYMMDD_HHMMSS.txt` filename timestamp (conjunct 3 — files
without a parseable timestamp are excluded even when the cutoff matches);
it returns `None` exactly when no candidate remains (conjunct 1); and a
returned path belongs to a candidate whose timestamp is maximal among all
candidates (conjunct 2). -/
theorem report_locator_characterisation (target : String) (files : List RFile) :
    (find_matching_report target files = none ↔
      files.filterMap (candidateOf target) = []) ∧
    (∀ p, find_matching_report target files = some p →
      ∃ ts, (ts, p) ∈ files.filterMap (candidateOf target) ∧
        ∀ c ∈ files.filterMap (candidateOf target), c.1 ≤ ts) ∧
    (∀ f, (candidateOf target f).isSome = true ↔
      ∃ content, f.content = some content ∧ content ≠ "" ∧
        (searchCutoff content.data).map (fun ds => String.mk ds) = some target ∧
        (parseTimestamp f.path).isSome = true) := by
  have hperm := List.perm_insertionSort candRel (files.filterMap (candidateOf target))
  have hsorted := List.sorted_insertionSort candRel (files.filterMap (candidateOf target))
  refine ⟨?_, ?_, ?_⟩
  · rw [find_matching_report]
    cases hs : List.insertionSort candRel (files.filterMap (candidateOf target)) with
    | nil =>
      rw [hs] at hperm
      simp [hperm.symm.eq_nil]
    | cons c rest =>
      simp only [hs, List.head?_cons]
      constructor
      · intro h; cases h
      · intro h
        rw [h] at hs
        have hnil : ([] : List (Nat × String)) = c :: rest := hs
        cases hnil
  · intro p hp
    rw [find_matching_report] at hp
    cases hs : List.insertionSort candRel (files.filterMap (candidateOf target)) with
    | nil => rw [hs] at hp; cases hp
    | cons c rest =>
      rw [hs] at hp
      have hp2 : c.2 = p := by simpa using hp
      refine ⟨c.1, ?_, ?_⟩
      · have hc : c ∈ files.filterMap (candidateOf target) := by
          rw [hs] at hperm
          exact hperm.mem_iff.1 (List.mem_cons_self c rest)
        rw [← hp2]
        simpa using hc
      · intro d hd
        rw [hs] at hperm hsorted
        have hd2 : d ∈ c :: rest := hperm.symm.mem_iff.1 hd
        cases hd2 with
        | head => exact Nat.le_refl _
        | tail _ h2 =>
          have hrel := List.rel_of_sorted_cons hsorted d h2
          cases hrel with
          | inl h3 => exact Nat.le_of_lt h3
          | inr h3 => exact Nat.le_of_eq h3.1
  · intro f
    constructor
    · intro h
      rw [candidateOf] at h
      split at h
      · simp at h
      · rename_i content hcontent
        split at h
        · simp at h
        · rename_i hne
          split at h
          · rename_i ds hds
            split at h
            · rename_i hteq
              split at h
              · rename_i ts hts
                exact ⟨content, hcontent, hne, by rw [hds]; simpa using hteq,
                  by rw [hts]; rfl⟩
              · simp at h
            · simp at h
          · simp at h
    · rintro ⟨content, hcontent, hne, hcut, hts⟩
      simp only [candidateOf, hcontent]
      rw [if_neg hne]
      cases hcut0 : searchCutoff content.data with
      | none =>
        rw [hcut0] at hcut
        cases hcut
      | some ds =>
        rw [hcut0] at hcut
        have hcut2 : String.mk ds = target := by simpa using hcut
        simp only [hcut0]
        rw [if_pos hcut2]
        cases hts0 : parseTimestamp f.path with
        | none => rw [hts0] at hts; cases hts
        | some ts => simp only [hts0, Option.isSome_some]

/-- The spec's determinism scenario: two eligible reports with cutoff
period `"100"`, timestamps `20240101_100000` and `20240102_090000`. -/
def demoFiles : List RFile :=
  [⟨"pls_analysis_output_20240101_100000.txt", some "分析基于数据: 截至 100 期"⟩,
   ⟨"pls_analysis_output_20240102_090000.txt", some "分析基于数据: 截至 100 期"⟩]

/-- Witness for C2: on the spec's two-candidate scenario the locator
returns the later-timestamped report, and that choice carries the maximal
candidate timestamp. -/
theorem report_locator_witness :
    (find_matching_report "100" demoFiles =
      some "pls_analysis_output_20240102_090000.txt") ∧
    (∃ ts, (ts, "pls_analysis_output_20240102_090000.txt") ∈
        demoFiles.filterMap (candidateOf "100") ∧
      ∀ c ∈ demoFiles.filterMap (candidateOf "100"), c.1 ≤ ts) :=
  ⟨by decide,
   (report_locator_characterisation "100" demoFiles).2.1
     "pls_analysis_output_20240102_090000.txt" (by decide)⟩

/-! ### Theorems: Orchestrator error handling -/

/-- C7: `main_process` is a total function of the run environment (every
`raise` inside the `try:` body is caught at the single `except` boundary,
so no exception escapes the process boundary).  Conjunct 1: every failed
run persists exactly one error record — the persisted log becomes one
error block (carrying the raised message prefixed `验证过程发生错误: `)
followed by the old log.  Conjunct 2: every successful run persists
exactly one outcome record — one outcome block followed by the old log.
Conjuncts 3–8: each of the six failure conditions named by the claim
(unreadable/empty dataset, no valid draw records, fewer than 2 known
periods, no matching report, unreadable/empty report, zero tickets
extracted) forces the run onto the error path. -/
theorem orchestrator_error_handling (env : Env) :
    (∀ msg, mainRun env = .error msg →
      main_process env =
        errorBlock env.now ("验证过程发生错误: " ++ msg) ++ contentOf env.existing_log) ∧
    (∀ e, mainRun env = .ok e →
      main_process env = outcomeBlock e ++ contentOf env.existing_log) ∧
    ((env.csv_content = none ∨ env.csv_content = some "") → (mainRun env).isOk = false) ∧
    (∀ s, env.csv_content = some s → s ≠ "" →
      (get_period_data_from_csv s).1 = none → (mainRun env).isOk = false) ∧
    (∀ s pd ps, env.csv_content = some s → s ≠ "" →
      (get_period_data_from_csv s).1 = some (pd, ps) → ps.length < 2 →
      (mainRun env).isOk = false) ∧
    (∀ s pd ps evalP cutP rest, env.csv_content = some s → s ≠ "" →
      (get_period_data_from_csv s).1 = some (pd, ps) →
      pd ≠ [] → ps ≠ [] → ¬ps.length < 2 →
      ps.reverse = evalP :: cutP :: rest →
      find_matching_report cutP env.report_files = none →
      (mainRun env).isOk = false) ∧
    (∀ s pd ps evalP cutP rest path, env.csv_content = some s → s ≠ "" →
      (get_period_data_from_csv s).1 = some (pd, ps) →
      pd ≠ [] → ps ≠ [] → ¬ps.length < 2 →
      ps.reverse = evalP :: cutP :: rest →
      find_matching_report cutP env.report_files = some path →
      contentOf (readReport env.report_files path) = "" →
      (mainRun env).isOk = false) ∧
    (∀ s pd ps evalP cutP rest path, env.csv_content = some s → s ≠ "" →
      (get_period_data_from_csv s).1 = some (pd, ps) →
      pd ≠ [] → ps ≠ [] → ¬ps.length < 2 →
      ps.reverse = evalP :: cutP :: rest →
      find_matching_report cutP env.report_files = some path →
      contentOf (readReport env.report_files path) ≠ "" →
      parse_recommendations_from_report (contentOf (readReport env.report_files path)) = [] →
      (mainRun env).isOk = false) := by
  have hparsed : ∀ (s : String) (pd : List (String × List Int)) (ps : List String),
      env.csv_content = some s → s ≠ "" →
      (get_period_data_from_csv s).1 = some (pd, ps) →
      mainRun env =
        if pd = [] ∨ ps = [] then Except.error "未能解析到有效的开奖数据"
        else if ps.length < 2 then Except.error "数据不足，至少需要2期数据"
        else
          match ps.reverse with
          | eval_period :: data_cutoff_period :: _ =>
            mainRunTail env pd eval_period data_cutoff_period
          | _ => Except.error "数据不足，至少需要2期数据" := by
    intro s pd ps hs hne hp
    simp only [mainRun, hs, contentOf]
    rw [if_neg hne, hp]
  refine ⟨?_, ?_, ?_, ?_, ?_, ?_, ?_, ?_⟩
  · intro msg h
    simp only [main_process, h]
    rw [manage_report_error_eq]
  · intro e h
    simp only [main_process, h]
    rw [manage_report_outcome_eq]
  · intro h
    cases h with
    | inl h => simp only [mainRun, h, contentOf]; rfl
    | inr h => simp only [mainRun, h, contentOf]; rfl
  · intro s hs hne hp
    simp only [mainRun, hs, contentOf]
    rw [if_neg hne, hp]
    rfl
  · intro s pd ps hs hne hp hlt
    rw [hparsed s pd ps hs hne hp]
    by_cases hpd : pd = [] ∨ ps = []
    · rw [if_pos hpd]
      rfl
    · rw [if_neg hpd, if_pos hlt]
      rfl
  · intro s pd ps evalP cutP rest hs hne hp hpd hps hlt hrev hfind
    rw [hparsed s pd ps hs hne hp, if_neg (by simp [hpd, hps]), if_neg hlt]
    simp only [hrev, mainRunTail, hfind]
    rfl
  · intro s pd ps evalP cutP rest path hs hne hp hpd hps hlt hrev hfind hrc
    rw [hparsed s pd ps hs hne hp, if_neg (by simp [hpd, hps]), if_neg hlt]
    simp only [hrev, mainRunTail, hfind]
    rw [if_pos hrc]
    rfl
  · intro s pd ps evalP cutP rest path hs hne hp hpd hps hlt hrev hfind hrc hparse
    rw [hparsed s pd ps hs hne hp, if_neg (by simp [hpd, hps]), if_neg hlt]
    simp only [hrev, mainRunTail, hfind]
    rw [if_neg hrc, if_pos hparse]
    rfl

/-- Witness for C7 at an environment with an unreadable dataset: the run
fails, and the persisted log becomes exactly one error block prepended to
the old log. -/
theorem orchestrator_error_handling_witness :
    ((mainRun ⟨none, [], some "OLD", "T"⟩).isOk = false) ∧
    (mainRun ⟨none, [], some "OLD", "T"⟩ = .error "无法读取数据文件: pls.csv") ∧
    (main_process ⟨none, [], some "OLD", "T"⟩ =
      errorBlock "T" ("验证过程发生错误: " ++ "无法读取数据文件: pls.csv") ++
        contentOf (some "OLD")) :=
  ⟨(orchestrator_error_handling ⟨none, [], some "OLD", "T"⟩).2.2.1 (Or.inl rfl),
   by rfl,
   (orchestrator_error_handling ⟨none, [], some "OLD", "T"⟩).1
     "无法读取数据文件: pls.csv" (by rfl)⟩

end PLS
